import Mathlib

/-!
# Verification of the `pixels` image-pixelation library

Shallow embedding of the color math, palette extraction, and pipeline state
of the `Abourass/pixels` repository (`src/pixel-it`), together with theorems
settling the specification claims about it.

Modelling conventions:

* An `RGBColor` (`[r, g, b]`, three integers in `[0, 255]`) is embedded as the
  structure `RGB` with three `Nat` fields.
* A raster pixel (one RGBA cell of a `Uint8ClampedArray`) is the structure
  `Pixel`.  A buffer (`ImageData.data`) is a `List Pixel`; the flat byte
  array always has length `4 * width * height`, so the pixel-list view is
  exact.
* JavaScript numbers on the code paths modelled here hold small integers and
  simple rationals; they are embedded as `Nat` / `Int` / `ℚ` with exact
  arithmetic.  `Math.round x` for the non-negative arguments arising here is
  `⌊x + 1/2⌋`, embedded for `x = a / b` as `jsRound a b = (2*a + b) / (2*b)`
  in natural division.  Double rounding cannot change any of the comparisons
  or roundings modelled below: the quantities involved are ratios of integers
  bounded by a few thousand, whose distance from the nearest half-integer is
  far larger than the floating-point error.
* `colorSim` computes `Math.sqrt` of the sum of squared channel differences.
  `Math.sqrt` is strictly monotone (and injective on the integers `0..3*255²`
  in double precision), so every comparison the code makes between two
  `colorSim` values coincides with the same comparison between the squared
  sums.  We therefore embed the squared distance `colorSim2` and state all
  distance comparisons in terms of it; the threshold `colorSim < 25` of the
  palette extractor becomes `colorSim2 < 625`.
-/

/-- The `RGBColor`: a `[r, g, b]` triple (`src/pixel-it/types.ts`). -/
structure RGB where
  r : Nat
  g : Nat
  b : Nat
deriving DecidableEq, Repr

/-- One RGBA cell of a raster buffer (`Uint8ClampedArray`, 4 bytes per pixel). -/
structure Pixel where
  r : Nat
  g : Nat
  b : Nat
  a : Nat
deriving DecidableEq, Repr

/-- Squared Euclidean distance between two colors.  The source's `colorSim`
(`color-utils.ts`) loops over the three channels summing squared differences
and returns `Math.sqrt` of the sum; we keep the sum itself (see the module
doc comment for why that is comparison-equivalent). -/
def colorSim2 (rgbColor compareColor : RGB) : Int :=
  ((rgbColor.r : Int) - compareColor.r) ^ 2
    + ((rgbColor.g : Int) - compareColor.g) ^ 2
    + ((rgbColor.b : Int) - compareColor.b) ^ 2

/-- One iteration of the `palette.forEach` loop body of `findSimilarColor`:
replace the current best `(selectedColor, currentSim)` when
`nextColor <= currentSim`. -/
def fscStep (actualColor : RGB) (acc : RGB × Int) (color : RGB) : RGB × Int :=
  if colorSim2 actualColor color ≤ acc.2 then (color, colorSim2 actualColor color) else acc

/-- The `findSimilarColor` (`color-utils.ts`): start with `palette[0]` as current
best, scan the whole palette (the `forEach` revisits `palette[0]`), replacing
the best on a `<=` comparison.  On an empty palette the source dereferences
`palette[0]` and throws; callers guarantee non-emptiness, and we return the
query color in that unreachable case. -/
def findSimilarColor (actualColor : RGB) (palette : List RGB) : RGB :=
  match palette with
  | [] => actualColor
  | p0 :: _ =>
    (palette.foldl (fscStep actualColor) (p0, colorSim2 actualColor p0)).1

theorem colorSim2_nonneg (a b : RGB) : 0 ≤ colorSim2 a b := by
  have h1 := sq_nonneg ((a.r : Int) - b.r)
  have h2 := sq_nonneg ((a.g : Int) - b.g)
  have h3 := sq_nonneg ((a.b : Int) - b.b)
  unfold colorSim2
  omega

theorem colorSim2_self (a : RGB) : colorSim2 a a = 0 := by
  simp [colorSim2]

theorem colorSim2_eq_zero {a b : RGB} (h : colorSim2 a b = 0) : b = a := by
  obtain ⟨ar, ag, ab⟩ := a
  obtain ⟨br, bg, bb⟩ := b
  unfold colorSim2 at h
  simp only at h
  have h1 := sq_nonneg ((ar : Int) - br)
  have h2 := sq_nonneg ((ag : Int) - bg)
  have h3 := sq_nonneg ((ab : Int) - bb)
  have hr : ((ar : Int) - br) ^ 2 = 0 := by omega
  have hg : ((ag : Int) - bg) ^ 2 = 0 := by omega
  have hb : ((ab : Int) - bb) ^ 2 = 0 := by omega
  have hr' := pow_eq_zero_iff (n := 2) (by norm_num) |>.mp hr
  have hg' := pow_eq_zero_iff (n := 2) (by norm_num) |>.mp hg
  have hb' := pow_eq_zero_iff (n := 2) (by norm_num) |>.mp hb
  simp only [RGB.mk.injEq]
  refine ⟨?_, ?_, ?_⟩ <;> omega

/-- Invariant of the `findSimilarColor` scan: folding `fscStep` over a list
from an accumulator whose second component is the distance of its first
yields the last entry attaining the running minimum. -/
theorem fsc_fold (c : RGB) (l : List RGB) :
    ∀ acc : RGB × Int, acc.2 = colorSim2 c acc.1 →
      (l.foldl (fscStep c) acc).2 = colorSim2 c (l.foldl (fscStep c) acc).1 ∧
      (l.foldl (fscStep c) acc).2 ≤ acc.2 ∧
      (∀ q ∈ l, (l.foldl (fscStep c) acc).2 ≤ colorSim2 c q) ∧
      ((l.foldl (fscStep c) acc) = acc ∧
          (∀ q ∈ l, (l.foldl (fscStep c) acc).2 < colorSim2 c q) ∨
        ∃ l₁ l₂, l = l₁ ++ (l.foldl (fscStep c) acc).1 :: l₂ ∧
          ∀ q ∈ l₂, (l.foldl (fscStep c) acc).2 < colorSim2 c q) := by
  induction l with
  | nil =>
    intro acc hacc
    refine ⟨hacc, le_refl _, by simp, Or.inl ⟨rfl, by simp⟩⟩
  | cons q t ih =>
    intro acc hacc
    by_cases hq : colorSim2 c q ≤ acc.2
    · -- the step takes q as the new best
      have hstep : fscStep c acc q = (q, colorSim2 c q) := by
        simp [fscStep, hq]
      have ih' := ih (q, colorSim2 c q) rfl
      obtain ⟨i1, i2, i3, i4⟩ := ih'
      have hfold : (q :: t).foldl (fscStep c) acc = t.foldl (fscStep c) (q, colorSim2 c q) := by
        rw [List.foldl_cons, hstep]
      rw [hfold]
      refine ⟨i1, le_trans i2 hq, ?_, ?_⟩
      · intro x hx
        rcases List.mem_cons.mp hx with h | h
        · subst h; exact le_trans i2 (le_refl _)
        · exact i3 x h
      · rcases i4 with ⟨heq, hstrict⟩ | ⟨l₁, l₂, hsplit, hstrict⟩
        · -- result is (q, d q) itself: q is the last best
          right
          refine ⟨[], t, ?_, ?_⟩
          · simp [heq]
          · intro x hx; exact hstrict x hx
        · right
          exact ⟨q :: l₁, l₂, by rw [List.cons_append, ← hsplit], hstrict⟩
    · -- the step keeps acc
      have hstep : fscStep c acc q = acc := by
        simp [fscStep, hq]
      have ih' := ih acc hacc
      obtain ⟨i1, i2, i3, i4⟩ := ih'
      have hfold : (q :: t).foldl (fscStep c) acc = t.foldl (fscStep c) acc := by
        rw [List.foldl_cons, hstep]
      rw [hfold]
      push_neg at hq
      refine ⟨i1, i2, ?_, ?_⟩
      · intro x hx
        rcases List.mem_cons.mp hx with h | h
        · subst h; omega
        · exact i3 x h
      · rcases i4 with ⟨heq, hstrict⟩ | ⟨l₁, l₂, hsplit, hstrict⟩
        · left
          refine ⟨heq, ?_⟩
          intro x hx
          rcases List.mem_cons.mp hx with h | h
          · subst h; rw [heq]; omega
          · exact hstrict x h
        · right
          exact ⟨q :: l₁, l₂, by rw [List.cons_append, ← hsplit], hstrict⟩

/-- The scan's result minimizes the (squared, hence Euclidean) distance over
the palette. -/
theorem findSimilarColor_min (c : RGB) (p0 : RGB) (rest : List RGB) :
    ∀ q ∈ p0 :: rest,
      colorSim2 c (findSimilarColor c (p0 :: rest)) ≤ colorSim2 c q := by
  have hfs : findSimilarColor c (p0 :: rest)
      = ((p0 :: rest).foldl (fscStep c) (p0, colorSim2 c p0)).1 := rfl
  have h := fsc_fold c (p0 :: rest) (p0, colorSim2 c p0) rfl
  obtain ⟨h1, _, h3, _⟩ := h
  intro q hq
  have := h3 q hq
  rw [hfs]
  omega

/-- The scan's result is the *last* entry attaining the minimum: the palette
splits as `l₁ ++ result :: l₂` with every entry of `l₂` strictly farther. -/
theorem findSimilarColor_last (c : RGB) (p0 : RGB) (rest : List RGB) :
    ∃ l₁ l₂, p0 :: rest = l₁ ++ findSimilarColor c (p0 :: rest) :: l₂ ∧
      ∀ q ∈ l₂, colorSim2 c (findSimilarColor c (p0 :: rest)) < colorSim2 c q := by
  have hfs : findSimilarColor c (p0 :: rest)
      = ((p0 :: rest).foldl (fscStep c) (p0, colorSim2 c p0)).1 := rfl
  have h := fsc_fold c (p0 :: rest) (p0, colorSim2 c p0) rfl
  obtain ⟨h1, h2, h3, h4⟩ := h
  rcases h4 with ⟨heq, hstrict⟩ | ⟨l₁, l₂, hsplit, hstrict⟩
  · -- impossible: the head p0 would be strictly farther than itself
    exfalso
    have := hstrict p0 (by simp)
    rw [heq] at this
    simp at this
  · refine ⟨l₁, l₂, ?_, ?_⟩
    · rw [hfs]; exact hsplit
    · intro q hq
      have := hstrict q hq
      rw [hfs]
      omega

/-- Membership: the result of the scan is a palette entry. -/
theorem findSimilarColor_mem (c : RGB) (palette : List RGB) (h : palette ≠ []) :
    findSimilarColor c palette ∈ palette := by
  match palette with
  | [] => exact absurd rfl h
  | p0 :: rest =>
    obtain ⟨l₁, l₂, hsplit, _⟩ := findSimilarColor_last c p0 rest
    have hmem : findSimilarColor c (p0 :: rest)
        ∈ l₁ ++ findSimilarColor c (p0 :: rest) :: l₂ := by simp
    rwa [← hsplit] at hmem

/-- An exact palette match always wins: `findSimilarColor c [c, x] = c`. -/
theorem findSimilarColor_exact (c x : RGB) : findSimilarColor c [c, x] = c := by
  have hfs : findSimilarColor c [c, x]
      = (([c, x]).foldl (fscStep c) (c, colorSim2 c c)).1 := rfl
  rw [hfs]
  simp only [List.foldl_cons, List.foldl_nil]
  have hself : colorSim2 c c = 0 := colorSim2_self c
  have hstep1 : fscStep c (c, colorSim2 c c) c = (c, colorSim2 c c) := by
    simp [fscStep]
  rw [hstep1]
  by_cases hx : colorSim2 c x ≤ colorSim2 c c
  · have hx0 : colorSim2 c x = 0 := by
      have := colorSim2_nonneg c x
      rw [hself] at hx
      omega
    have : x = c := colorSim2_eq_zero hx0
    subst this
    simp [fscStep]
  · simp [fscStep, hx]

/-!
## JavaScript rounding and the two grayscale conversions
-/

/-- The `Math.round (num / den)` for non-negative integers `num`, positive `den`:
`⌊num/den + 1/2⌋ = (2*num + den) / (2*den)` in natural division. -/
def jsRound (num den : Nat) : Nat := (2 * num + den) / (2 * den)

theorem jsRound_mul (r m : Nat) (hm : 0 < m) : jsRound (r * m) m = r := by
  unfold jsRound
  have h : 2 * (r * m) + m = m * (2 * r + 1) := by ring
  rw [h, mul_comm 2 m, Nat.mul_div_mul_left _ _ hm]
  omega

/-- The `PixelIt.convertGrayscale` loop body (`core/pixelit.ts`): each channel is
replaced by `(r + g + b) / 3`; the float quotient is stored into a
`Uint8ClampedArray`, which rounds to the nearest integer (the fractional part
is `0`, `1/3` or `2/3`, so the clamper's ties-to-even rule never fires and
the stored value is `jsRound (r+g+b) 3`; the average is at most 255, so the
clamp itself never fires).  Alpha is not written. -/
def convertGrayscalePixel (p : Pixel) : Pixel :=
  let grayscale := jsRound (p.r + p.g + p.b) 3
  { r := grayscale, g := grayscale, b := grayscale, a := p.a }

/-- The worker's `handleGrayscale` loop body (`workers/pixelate-worker.ts`):
`Math.round(0.299*r + 0.587*g + 0.114*b)`, i.e. the luminance formula, with
the float coefficients read as the exact rationals they denote.  Alpha is not
written. -/
def handleGrayscalePixel (p : Pixel) : Pixel :=
  let grayscale := jsRound (299 * p.r + 587 * p.g + 114 * p.b) 1000
  { r := grayscale, g := grayscale, b := grayscale, a := p.a }

/-- The `PixelIt.convertGrayscale` over a whole buffer. -/
def convertGrayscaleData (data : List Pixel) : List Pixel :=
  data.map convertGrayscalePixel

/-- The worker's `handleGrayscale` over a whole buffer. -/
def handleGrayscaleData (data : List Pixel) : List Pixel :=
  data.map handleGrayscalePixel

/-!
## Hex/RGB conversion (`rgbToHex` / `hexToRgb`, `color-utils.ts`)

Strings are embedded as `List Char`; `s.substring(i, j)` is
`(s.drop i).take (j - i)`.
-/

/-- One lowercase hexadecimal digit, as produced by `Number.toString(16)`. -/
def hexDigitChar (n : Nat) : Char :=
  if n < 10 then Char.ofNat (48 + n) else Char.ofNat (87 + n)

/-- The `n.toString(16)` for a natural number: lowercase hex digits, no prefix. -/
def natToHex (n : Nat) : List Char :=
  if _h : n < 16 then [hexDigitChar n]
  else natToHex (n / 16) ++ [hexDigitChar (n % 16)]
termination_by n
decreasing_by exact Nat.div_lt_self (by omega) (by omega)

/-- The `String.padStart(2, '0')`. -/
def padStart2 (s : List Char) : List Char :=
  if s.length ≥ 2 then s else List.replicate (2 - s.length) '0' ++ s

/-- The `rgbToHex` (`color-utils.ts`): `'#'` followed by the three channels,
each as `toString(16).padStart(2, '0')`. -/
def rgbToHex (color : RGB) : List Char :=
  '#' :: (padStart2 (natToHex color.r)
    ++ padStart2 (natToHex color.g)
    ++ padStart2 (natToHex color.b))

/-- Value of a single hexadecimal digit accepted by `parseInt(_, 16)`. -/
def hexVal? (ch : Char) : Option Nat :=
  if '0' ≤ ch ∧ ch ≤ '9' then some (ch.toNat - 48)
  else if 'a' ≤ ch ∧ ch ≤ 'f' then some (ch.toNat - 87)
  else if 'A' ≤ ch ∧ ch ≤ 'F' then some (ch.toNat - 55)
  else none

/-- Accumulating pass of `parseInt(_, 16)`: consume hex digits until the
first non-digit. -/
def parseIntHexGo (acc : Nat) : List Char → Nat
  | [] => acc
  | ch :: rest =>
    match hexVal? ch with
    | some v => parseIntHexGo (acc * 16 + v) rest
    | none => acc

/-- The `parseInt(s, 16)` on the strings arising in `hexToRgb` (no leading
whitespace or sign): the longest valid digit prefix, `none` (`NaN`) when the
first character is not a hex digit. -/
def parseIntHex (s : List Char) : Option Nat :=
  match s with
  | [] => none
  | ch :: _ =>
    match hexVal? ch with
    | none => none
    | some _ => some (parseIntHexGo 0 s)

/-- The `hexToRgb` (`color-utils.ts`): parse `substring(1,3)`, `substring(3,5)`,
`substring(5,7)` in base 16.  The source returns a triple that contains `NaN`
for an unparsable channel; we return `none` in that case and `some` of the
triple otherwise. -/
def hexToRgb (hex : List Char) : Option RGB :=
  match parseIntHex ((hex.drop 1).take 2),
      parseIntHex ((hex.drop 3).take 2),
      parseIntHex ((hex.drop 5).take 2) with
  | some r, some g, some b => some { r := r, g := g, b := b }
  | _, _, _ => none

/-!
## Palette extraction (`extractPaletteFromImageData`, `color-utils.ts`)

The color-frequency map is a JavaScript `Map<string, {color, count}>` keyed
by the string `"qr,qg,qb"`; the comma-joined key is in bijection with the
quantized triple, so we key on the triple itself.  JavaScript `Map` updates
an existing key in place and appends fresh keys, iterating in insertion
order; the embedding is an association list with the same discipline.
-/

abbrev ColorKey := Nat × Nat × Nat

/-- One `{ color, count }` entry of the color-frequency map. -/
structure Bucket where
  color : RGB
  count : Nat
deriving DecidableEq, Repr

abbrev ColorMap := List (ColorKey × Bucket)

/-- The `Math.round(v / 8) * 8`: channel quantization to the nearest multiple
of 8. -/
def quantize (v : Nat) : Nat := jsRound v 8 * 8

/-- The bucket key of a pixel (the string `"qr,qg,qb"` in the source). -/
def bucketKey (p : Pixel) : ColorKey := (quantize p.r, quantize p.g, quantize p.b)

/-- Folding one pixel into an existing bucket.  The source first increments
`entry.count` (from `n` to `n + 1`) and then blends each channel using the
*already incremented* count:
`entry.color = Math.round((entry.color * entry.count + v) / (entry.count + 1))`,
which with the pre-update count `n` reads
`round((mean * (n+1) + v) / (n+2))`. -/
def blendBucket (bk : Bucket) (p : Pixel) : Bucket :=
  { color :=
      { r := jsRound (bk.color.r * (bk.count + 1) + p.r) (bk.count + 2)
        g := jsRound (bk.color.g * (bk.count + 1) + p.g) (bk.count + 2)
        b := jsRound (bk.color.b * (bk.count + 1) + p.b) (bk.count + 2) }
    count := bk.count + 1 }

/-- The `colorMap.has/get` update preserving position, `colorMap.set` appending
a fresh key at the end. -/
def mapFold (m : ColorMap) (key : ColorKey) (p : Pixel) : ColorMap :=
  match m with
  | [] => [(key, { color := { r := p.r, g := p.g, b := p.b }, count := 1 })]
  | (k, bk) :: rest =>
    if k = key then (k, blendBucket bk p) :: rest
    else (k, bk) :: mapFold rest key p

/-- One iteration of the sampling loop: skip pixels with alpha `< 128`,
otherwise fold the pixel into its quantized bucket. -/
def updatePixel (m : ColorMap) (p : Pixel) : ColorMap :=
  if p.a < 128 then m else mapFold m (bucketKey p) p

/-- The `for (let i = 0; i < len; i += 4*stride)` over the pixel view: visit
every `stride`-th pixel.  The first argument of the auxiliary is the number
of pixels still to skip before the next visited one. -/
def takeEveryAux (stride : Nat) : Nat → List Pixel → List Pixel
  | _, [] => []
  | 0, p :: rest => p :: takeEveryAux stride (stride - 1) rest
  | Nat.succ i, _ :: rest => takeEveryAux stride i rest

def takeEvery (stride : Nat) (l : List Pixel) : List Pixel :=
  takeEveryAux stride 0 l

/-- The `stride = Math.max(1, Math.floor(imageData.length / 4 / 10000))` with
`imageData.length = 4 * pixels`. -/
def extractStride (pixels : List Pixel) : Nat := max 1 (pixels.length / 10000)

/-- The color-frequency map built by the sampling loop. -/
def extractColorMap (pixels : List Pixel) : ColorMap :=
  (takeEvery (extractStride pixels) pixels).foldl updatePixel []

/-- Stable insertion of a bucket into a count-descending sorted list: the
new bucket goes before the first entry whose count is not larger.  A stable
sort's output is determined by the comparator, so this insertion sort agrees
with the source's stable `Array.prototype.sort((a, b) => b.count - a.count)`. -/
def insertBucket (bk : Bucket) : List Bucket → List Bucket
  | [] => [bk]
  | x :: xs => if x.count > bk.count then x :: insertBucket bk xs else bk :: x :: xs

/-- Stable sort by hit count, descending. -/
def sortBuckets : List Bucket → List Bucket
  | [] => []
  | x :: xs => insertBucket x (sortBuckets xs)

/-- First selection pass: keep colors in frequency order, skipping any whose
distance to an already-kept color is below the similarity threshold 25
(`colorSim < 25`, i.e. `colorSim2 < 625`), stopping at `numColors`. -/
def dedupPass (numColors : Nat) (result : List RGB) : List RGB → List RGB
  | [] => result
  | color :: rest =>
    if result.length ≥ numColors then result
    else if result.any (fun existingColor => colorSim2 color existingColor < 625) then
      dedupPass numColors result rest
    else dedupPass numColors (result ++ [color]) rest

/-- Backfill pass: when deduplication left fewer than `numColors` colors,
re-scan the sorted colors, skipping only exact triples already present,
until `numColors` is reached. -/
def backfillPass (numColors : Nat) (result : List RGB) : List RGB → List RGB
  | [] => result
  | color :: rest =>
    if result.length ≥ numColors then result
    else if result.any (fun c => c = color) then backfillPass numColors result rest
    else backfillPass numColors (result ++ [color]) rest

/-- The `extractPaletteFromImageData` (`color-utils.ts`); `numColors` defaults
to 16 in the source. -/
def extractPaletteFromImageData (pixels : List Pixel) (numColors : Nat) : List RGB :=
  let sortedColors := (sortBuckets ((extractColorMap pixels).map Prod.snd)).map Bucket.color
  let result := dedupPass numColors [] sortedColors
  if result.length < numColors ∧ sortedColors.length > result.length then
    backfillPass numColors result sortedColors
  else result

/-!
## Color statistics and `convertPalette`

The stats map `Record<string, number>` is keyed by `similarColor.join(',')`
(the string `"r,g,b"`), in bijection with the RGB triple; JavaScript object
properties update in place and append fresh keys, embedded as an association
list.  Counts stored are always at least 1, so the source's truthiness test
`if (colorCount[color])` coincides with key presence.
-/

abbrev StatKey := Nat × Nat × Nat

abbrev ColorStats := List (StatKey × Nat)

/-- Increment `colorCount[color]`, initializing absent keys to 1
(`countColor`, `color-utils.ts`, on a present key; the `!color` guard is the
`none` case below, returning the record unchanged). -/
def bumpColor (key : StatKey) : ColorStats → ColorStats
  | [] => [(key, 1)]
  | (k, n) :: rest =>
    if k = key then (k, n + 1) :: rest else (k, n) :: bumpColor key rest

/-- The `countColor` (`color-utils.ts`): no-op on a null/empty color key. -/
def countColor (color : Option StatKey) (colorCount : ColorStats) : ColorStats :=
  match color with
  | none => colorCount
  | some key => bumpColor key colorCount

/-- Sum of all recorded counts. -/
def statsSum (stats : ColorStats) : Nat :=
  stats.foldr (fun e acc => e.2 + acc) 0

/-- The `Uint8ClampedArray` store of a non-negative integer. -/
def clamp255 (v : Nat) : Nat := min v 255

/-- The `convertPalette` per-pixel loop (`core/pixelit.ts`, lines 552-568):
replace RGB with the nearest palette color, keep alpha, and count the matched
color's `"r,g,b"` key; the stats record is threaded left to right. -/
def convertPaletteLoop (palette : List RGB) :
    List Pixel → ColorStats → List Pixel × ColorStats
  | [], stats => ([], stats)
  | p :: rest, stats =>
    let similarColor := findSimilarColor { r := p.r, g := p.g, b := p.b } palette
    let stats' := countColor (some (similarColor.r, similarColor.g, similarColor.b)) stats
    let next := convertPaletteLoop palette rest stats'
    ({ r := clamp255 similarColor.r, g := clamp255 similarColor.g,
       b := clamp255 similarColor.b, a := p.a } :: next.1, next.2)

/-!
## Pipeline state (`PixelIt`, `core/pixelit.ts`; `PixelItWorker`,
`core/pixelit-worker.ts`)

The mutable fields of either class that the claims touch.  The canvas
contents (`ctx.getImageData`) are the `buffer`; DOM handles, the worker
queue, and drawing proper are outside the claims.  Scale values are embedded
as exact rationals (`scale * 0.01` is exact small-rational arithmetic;
see the module doc comment).
-/

structure PipelineState where
  buffer : List Pixel
  scale : ℚ
  palette : List RGB
  availablePalettes : List (List RGB)
  currentPaletteIndex : Int
  maxWidth : Option ℚ
  maxHeight : Option ℚ
  endColorStats : ColorStats
deriving DecidableEq, Repr

namespace PixelIt

/-- The `PixelIt.setScale` (`core/pixelit.ts`):
`this.scale = scale && scale > 0 && scale <= 50 ? scale * 0.01 : this.scale`
— out-of-range input keeps the previous scale.  (`scale &&` is JavaScript
truthiness, `scale ≠ 0`, subsumed by `0 < scale`.) -/
def setScale (st : PipelineState) (scale : ℚ) : PipelineState :=
  if scale ≠ 0 ∧ 0 < scale ∧ scale ≤ 50 then { st with scale := scale * (1 / 100) }
  else st

/-- The `PixelIt.getScale`: `this.scale * 100`. -/
def getScale (st : PipelineState) : ℚ := st.scale * 100

/-- The `PixelIt.getPalette`. -/
def getPalette (st : PipelineState) : List RGB := st.palette

/-- The `PixelIt.getColorStats`. -/
def getColorStats (st : PipelineState) : ColorStats := st.endColorStats

/-- The `PixelIt.setPaletteByIndex` (`core/pixelit.ts`): bounds-checked; an
out-of-range index leaves everything unchanged. -/
def setPaletteByIndex (st : PipelineState) (index : Int) : PipelineState :=
  if 0 ≤ index ∧ index < st.availablePalettes.length then
    { st with currentPaletteIndex := index
              palette := st.availablePalettes.getD index.toNat [] }
  else st

/-- The `PixelIt.addPalette`: unconditionally `this.availablePalettes.push(palette)`. -/
def addPalette (st : PipelineState) (palette : List RGB) : PipelineState :=
  { st with availablePalettes := st.availablePalettes ++ [palette] }

/-- The `PixelIt.convertGrayscale` over the pipeline state. -/
def convertGrayscale (st : PipelineState) : PipelineState :=
  { st with buffer := convertGrayscaleData st.buffer }

/-- The `PixelIt.convertPalette`: maps the buffer through the nearest-color
lookup and stores the freshly built stats record (`this.endColorStats =
colorStats`), discarding any previous one. -/
def convertPalette (st : PipelineState) : PipelineState :=
  let res := convertPaletteLoop st.palette st.buffer []
  { st with buffer := res.1, endColorStats := res.2 }

end PixelIt

namespace PixelItWorker

/-- The `PixelItWorker.setScale` (`core/pixelit-worker.ts`):
`this.scale = scale > 0 && scale <= 50 ? scale * 0.01 : 8 * 0.01`
— out-of-range input resets to the default `0.08`. -/
def setScale (st : PipelineState) (scale : ℚ) : PipelineState :=
  if 0 < scale ∧ scale ≤ 50 then { st with scale := scale * (1 / 100) }
  else { st with scale := 8 * (1 / 100) }

/-- The `PixelItWorker.getColorStats`. -/
def getColorStats (st : PipelineState) : ColorStats := st.endColorStats

/-- The `PixelItWorker.setPaletteByIndex`: identical to `PixelIt`'s. -/
def setPaletteByIndex (st : PipelineState) (index : Int) : PipelineState :=
  if 0 ≤ index ∧ index < st.availablePalettes.length then
    { st with currentPaletteIndex := index
              palette := st.availablePalettes.getD index.toNat [] }
  else st

/-- The `PixelItWorker.addPalette`: pushes only when no already-registered
palette is `JSON.stringify`-equal — and `JSON.stringify` is injective on
arrays of RGB triples, so the check is structural equality. -/
def addPalette (st : PipelineState) (palette : List RGB) : PipelineState :=
  if st.availablePalettes.any (fun p => p = palette) then st
  else { st with availablePalettes := st.availablePalettes ++ [palette] }

end PixelItWorker

/-!
## `resizeImage` (identical bodies in `PixelIt.resizeImage` and
`PixelItWorker.resizeImage`)

Computes the new canvas dimensions from the source's natural dimensions:
width constraint first, then the height constraint on the already-scaled
result.  `if (this.maxWidth && ...)` is JavaScript truthiness: the guard
fires only when the constraint is set and non-zero.
-/

def resizeImageDims (width height : ℚ) (maxWidth maxHeight : Option ℚ) : ℚ × ℚ :=
  let s1 : ℚ × ℚ :=
    match maxWidth with
    | some mw => if mw ≠ 0 ∧ width > mw then (mw, height * (mw / width)) else (width, height)
    | none => (width, height)
  match maxHeight with
  | some mh => if mh ≠ 0 ∧ s1.2 > mh then (s1.1 * (mh / s1.2), mh) else s1
  | none => s1

/-!
## Facts about the palette extractor
-/

/-- Sampling only ever visits pixels of the buffer. -/
theorem takeEveryAux_subset (stride : Nat) :
    ∀ (l : List Pixel) (i : Nat) (q : Pixel), q ∈ takeEveryAux stride i l → q ∈ l := by
  intro l
  induction l with
  | nil => intro i q hq; simp [takeEveryAux] at hq
  | cons p rest ih =>
    intro i q hq
    match i with
    | 0 =>
      simp only [takeEveryAux, List.mem_cons] at hq
      rcases hq with h | h
      · exact List.mem_cons.mpr (Or.inl h)
      · exact List.mem_cons.mpr (Or.inr (ih _ q h))
    | Nat.succ j =>
      simp only [takeEveryAux] at hq
      exact List.mem_cons.mpr (Or.inr (ih _ q hq))

/-- Updating an existing head key blends its bucket in place. -/
theorem mapFold_head (k : ColorKey) (bk : Bucket) (rest : ColorMap) (p : Pixel) :
    mapFold ((k, bk) :: rest) k p = (k, blendBucket bk p) :: rest := by
  simp [mapFold]

/-- A non-matching head entry is kept and the update recurses. -/
theorem mapFold_cons_ne (k0 : ColorKey) (bk0 : Bucket) (rest : ColorMap)
    (k : ColorKey) (p : Pixel) (h : k0 ≠ k) :
    mapFold ((k0, bk0) :: rest) k p = (k0, bk0) :: mapFold rest k p := by
  simp [mapFold, h]

/-- Folding further copies of the same opaque pixel into its singleton map
leaves the mean untouched and counts the copies. -/
theorem foldl_updatePixel_same (p : Pixel) (hp : 128 ≤ p.a) :
    ∀ (m : List Pixel), (∀ q ∈ m, q = p) → ∀ n : Nat,
      m.foldl updatePixel [(bucketKey p, ⟨⟨p.r, p.g, p.b⟩, n + 1⟩)]
        = [(bucketKey p, ⟨⟨p.r, p.g, p.b⟩, n + 1 + m.length⟩)] := by
  intro m
  induction m with
  | nil => intro _ n; simp
  | cons q rest ih =>
    intro hall n
    have hq : q = p := hall q (List.mem_cons_self q rest)
    subst hq
    have hch : ∀ v : Nat, jsRound (v * (n + 1 + 1) + v) (n + 1 + 2) = v := by
      intro v
      have h1 : v * (n + 1 + 1) + v = v * (n + 1 + 2) := by ring
      rw [h1]
      exact jsRound_mul v (n + 1 + 2) (by omega)
    have hstep : updatePixel [(bucketKey q, ⟨⟨q.r, q.g, q.b⟩, n + 1⟩)] q
        = [(bucketKey q, ⟨⟨q.r, q.g, q.b⟩, n + 1 + 1⟩)] := by
      unfold updatePixel
      rw [if_neg (by omega), mapFold_head]
      unfold blendBucket
      dsimp only
      rw [hch q.r, hch q.g, hch q.b]
    rw [List.foldl_cons, hstep]
    have hrec := ih (fun x hx => hall x (List.mem_cons.mpr (Or.inr hx))) (n + 1)
    rw [hrec]
    have hlen : n + 1 + 1 + rest.length = n + 1 + (q :: rest).length := by
      simp only [List.length_cons]
      omega
    rw [hlen]

/-- The first pass keeps at most `numColors` colors. -/
theorem dedupPass_length (numColors : Nat) :
    ∀ (l acc : List RGB), acc.length ≤ numColors →
      (dedupPass numColors acc l).length ≤ numColors := by
  intro l
  induction l with
  | nil => intro acc h; simpa [dedupPass] using h
  | cons c rest ih =>
    intro acc h
    unfold dedupPass
    by_cases hfull : acc.length ≥ numColors
    · rw [if_pos hfull]; exact h
    · rw [if_neg hfull]
      by_cases hsim : acc.any (fun existingColor => colorSim2 c existingColor < 625)
      · rw [if_pos hsim]; exact ih acc h
      · rw [if_neg hsim]
        exact ih (acc ++ [c]) (by simp; omega)

/-- The backfill pass keeps at most `numColors` colors. -/
theorem backfillPass_length (numColors : Nat) :
    ∀ (l acc : List RGB), acc.length ≤ numColors →
      (backfillPass numColors acc l).length ≤ numColors := by
  intro l
  induction l with
  | nil => intro acc h; simpa [backfillPass] using h
  | cons c rest ih =>
    intro acc h
    unfold backfillPass
    by_cases hfull : acc.length ≥ numColors
    · rw [if_pos hfull]; exact h
    · rw [if_neg hfull]
      by_cases hdup : acc.any (fun x => x = c)
      · rw [if_pos hdup]; exact ih acc h
      · rw [if_neg hdup]
        exact ih (acc ++ [c]) (by simp; omega)

/-- The first pass never introduces duplicate exact triples. -/
theorem dedupPass_pairwise (numColors : Nat) :
    ∀ (l acc : List RGB), acc.Pairwise (· ≠ ·) →
      (dedupPass numColors acc l).Pairwise (· ≠ ·) := by
  intro l
  induction l with
  | nil => intro acc h; simpa [dedupPass] using h
  | cons c rest ih =>
    intro acc h
    unfold dedupPass
    by_cases hfull : acc.length ≥ numColors
    · rw [if_pos hfull]; exact h
    · rw [if_neg hfull]
      by_cases hsim : acc.any (fun existingColor => colorSim2 c existingColor < 625)
      · rw [if_pos hsim]; exact ih acc h
      · rw [if_neg hsim]
        refine ih (acc ++ [c]) ?_
        rw [List.pairwise_append]
        refine ⟨h, by simp, ?_⟩
        intro a ha b hb
        have hb' : b = c := by simpa using hb
        subst hb'
        intro hac
        subst hac
        have := List.any_eq_true.not.mp hsim
        push_neg at this
        have h0 := this a ha
        rw [colorSim2_self] at h0
        exact h0 (by decide)

/-- The backfill pass never introduces duplicate exact triples. -/
theorem backfillPass_pairwise (numColors : Nat) :
    ∀ (l acc : List RGB), acc.Pairwise (· ≠ ·) →
      (backfillPass numColors acc l).Pairwise (· ≠ ·) := by
  intro l
  induction l with
  | nil => intro acc h; simpa [backfillPass] using h
  | cons c rest ih =>
    intro acc h
    unfold backfillPass
    by_cases hfull : acc.length ≥ numColors
    · rw [if_pos hfull]; exact h
    · rw [if_neg hfull]
      by_cases hdup : acc.any (fun x => x = c)
      · rw [if_pos hdup]; exact ih acc h
      · rw [if_neg hdup]
        refine ih (acc ++ [c]) ?_
        rw [List.pairwise_append]
        refine ⟨h, by simp, ?_⟩
        intro a ha b hb
        have hb' : b = c := by simpa using hb
        subst hb'
        have := List.any_eq_true.not.mp hdup
        push_neg at this
        have h0 := this a ha
        simpa using h0

/-- Bounds: the extractor returns at most `numColors` colors. -/
theorem extractPalette_le (pixels : List Pixel) (numColors : Nat) :
    (extractPaletteFromImageData pixels numColors).length ≤ numColors := by
  unfold extractPaletteFromImageData
  dsimp only
  split
  · exact backfillPass_length numColors _ _ (dedupPass_length numColors _ [] (by simp))
  · exact dedupPass_length numColors _ [] (by simp)

/-- The extractor never returns two identical exact RGB triples. -/
theorem extractPalette_pairwise (pixels : List Pixel) (numColors : Nat) :
    (extractPaletteFromImageData pixels numColors).Pairwise (· ≠ ·) := by
  unfold extractPaletteFromImageData
  dsimp only
  split
  · exact backfillPass_pairwise numColors _ _ (dedupPass_pairwise numColors _ [] (by simp))
  · exact dedupPass_pairwise numColors _ [] (by simp)

/-- Sorting a singleton bucket list is the identity. -/
theorem sortBuckets_single (bk : Bucket) : sortBuckets [bk] = [bk] := rfl

/-- A uniformly colored, opaque buffer yields exactly its one color,
whatever `numColors ≥ 1` is requested. -/
theorem extractPalette_single (p : Pixel) (hp : 128 ≤ p.a) (pixels : List Pixel)
    (hne : pixels ≠ []) (hall : ∀ q ∈ pixels, q = p) (numColors : Nat)
    (hnc : 1 ≤ numColors) :
    extractPaletteFromImageData pixels numColors = [⟨p.r, p.g, p.b⟩] := by
  obtain ⟨q, rest, rfl⟩ : ∃ q rest, pixels = q :: rest := by
    cases pixels with
    | nil => exact absurd rfl hne
    | cons q rest => exact ⟨q, rest, rfl⟩
  have hq : q = p := hall q (by simp)
  subst hq
  have h1 : takeEvery (extractStride (q :: rest)) (q :: rest)
      = q :: takeEveryAux (extractStride (q :: rest)) (extractStride (q :: rest) - 1) rest := rfl
  have htail : ∀ x ∈ takeEveryAux (extractStride (q :: rest))
      (extractStride (q :: rest) - 1) rest, x = q := fun x hx =>
    hall x (List.mem_cons.mpr (Or.inr (takeEveryAux_subset _ rest _ x hx)))
  have h2 : updatePixel [] q = [(bucketKey q, ⟨⟨q.r, q.g, q.b⟩, 1⟩)] := by
    unfold updatePixel
    rw [if_neg (by omega)]
    rfl
  have h3 : extractColorMap (q :: rest)
      = [(bucketKey q, ⟨⟨q.r, q.g, q.b⟩,
          1 + (takeEveryAux (extractStride (q :: rest))
            (extractStride (q :: rest) - 1) rest).length⟩)] := by
    unfold extractColorMap
    rw [h1, List.foldl_cons, h2]
    exact foldl_updatePixel_same q hp _ htail 0
  have h4 : (sortBuckets ((extractColorMap (q :: rest)).map Prod.snd)).map Bucket.color
      = [⟨q.r, q.g, q.b⟩] := by
    rw [h3]
    rfl
  have h5 : dedupPass numColors [] [RGB.mk q.r q.g q.b] = [RGB.mk q.r q.g q.b] := by
    unfold dedupPass
    rw [if_neg (by simp; omega), if_neg (by simp)]
    simp [dedupPass]
  unfold extractPaletteFromImageData
  dsimp only
  rw [h4, h5]
  simp

/-!
## Facts about color statistics and `convertPalette`
-/

theorem statsSum_cons (e : StatKey × Nat) (t : ColorStats) :
    statsSum (e :: t) = e.2 + statsSum t := rfl

/-- Each bump adds exactly one to the total count. -/
theorem statsSum_bump (key : StatKey) :
    ∀ s : ColorStats, statsSum (bumpColor key s) = statsSum s + 1 := by
  intro s
  induction s with
  | nil => rfl
  | cons e rest ih =>
    obtain ⟨k, n⟩ := e
    unfold bumpColor
    by_cases hk : k = key
    · rw [if_pos hk]
      simp [statsSum_cons]
      omega
    · rw [if_neg hk]
      rw [statsSum_cons, statsSum_cons, ih]
      omega

/-- The stats record built by `convertPalette`'s loop counts exactly one key
per pixel. -/
theorem convertPaletteLoop_statsSum (palette : List RGB) :
    ∀ (data : List Pixel) (stats : ColorStats),
      statsSum (convertPaletteLoop palette data stats).2
        = statsSum stats + data.length := by
  intro data
  induction data with
  | nil => intro stats; rfl
  | cons p rest ih =>
    intro stats
    unfold convertPaletteLoop
    dsimp only
    rw [ih, countColor, statsSum_bump]
    simp
    omega

/-- The `convertPalette` leaves every pixel's alpha channel unchanged. -/
theorem convertPaletteLoop_alpha (palette : List RGB) :
    ∀ (data : List Pixel) (stats : ColorStats),
      ((convertPaletteLoop palette data stats).1).map Pixel.a
        = data.map Pixel.a := by
  intro data
  induction data with
  | nil => intro stats; rfl
  | cons p rest ih =>
    intro stats
    unfold convertPaletteLoop
    dsimp only
    rw [List.map_cons, List.map_cons, ih]

/-- Every output pixel of `convertPalette` carries a palette color (for a
non-empty palette of in-range colors; the `Uint8ClampedArray` store then
never clamps). -/
theorem convertPaletteLoop_mem (palette : List RGB) (hne : palette ≠ [])
    (hvalid : ∀ sc ∈ palette, sc.r ≤ 255 ∧ sc.g ≤ 255 ∧ sc.b ≤ 255) :
    ∀ (data : List Pixel) (stats : ColorStats) (q : Pixel),
      q ∈ (convertPaletteLoop palette data stats).1 →
        RGB.mk q.r q.g q.b ∈ palette := by
  intro data
  induction data with
  | nil => intro stats q hq; simp [convertPaletteLoop] at hq
  | cons p rest ih =>
    intro stats q hq
    unfold convertPaletteLoop at hq
    dsimp only at hq
    rcases List.mem_cons.mp hq with h | h
    · subst h
      have hmem := findSimilarColor_mem ⟨p.r, p.g, p.b⟩ palette hne
      obtain ⟨h255r, h255g, h255b⟩ := hvalid _ hmem
      have hcr : clamp255 (findSimilarColor ⟨p.r, p.g, p.b⟩ palette).r
          = (findSimilarColor ⟨p.r, p.g, p.b⟩ palette).r := Nat.min_eq_left h255r
      have hcg : clamp255 (findSimilarColor ⟨p.r, p.g, p.b⟩ palette).g
          = (findSimilarColor ⟨p.r, p.g, p.b⟩ palette).g := Nat.min_eq_left h255g
      have hcb : clamp255 (findSimilarColor ⟨p.r, p.g, p.b⟩ palette).b
          = (findSimilarColor ⟨p.r, p.g, p.b⟩ palette).b := Nat.min_eq_left h255b
      dsimp only
      rw [hcr, hcg, hcb]
      exact hmem
    · exact ih _ q h

/-!
## Facts about hex conversion
-/

theorem natToHex_lt16 {n : Nat} (h : n < 16) : natToHex n = [hexDigitChar n] := by
  unfold natToHex
  rw [dif_pos h]

/-- For byte values, `toString(16).padStart(2, '0')` is exactly the two hex
digits of the value. -/
theorem padStart2_natToHex {n : Nat} (h : n ≤ 255) :
    padStart2 (natToHex n) = [hexDigitChar (n / 16), hexDigitChar (n % 16)] := by
  by_cases h16 : n < 16
  · rw [natToHex_lt16 h16]
    unfold padStart2
    rw [if_neg (by simp)]
    have h1 : n / 16 = 0 := Nat.div_eq_of_lt h16
    have h2 : n % 16 = n := Nat.mod_eq_of_lt h16
    rw [h1, h2]
    rfl
  · push_neg at h16
    have hd : n / 16 < 16 := by omega
    unfold natToHex
    rw [dif_neg (by omega), natToHex_lt16 hd]
    unfold padStart2
    rw [if_pos (by simp)]
    rfl

/-- The `hexVal?` inverts `hexDigitChar` on digit values. -/
theorem hexVal?_hexDigitChar : ∀ d : Nat, d < 16 → hexVal? (hexDigitChar d) = some d := by
  decide

/-- Every character `hexDigitChar` emits is a lowercase hex digit. -/
theorem hexDigitChar_lower : ∀ d : Nat, d < 16 →
    ('0' ≤ hexDigitChar d ∧ hexDigitChar d ≤ '9')
      ∨ ('a' ≤ hexDigitChar d ∧ hexDigitChar d ≤ 'f') := by
  decide

/-- The `parseInt(_, 16)` on a two-hex-digit string. -/
theorem parseIntHex_two (c1 c2 : Char) (v1 v2 : Nat)
    (h1 : hexVal? c1 = some v1) (h2 : hexVal? c2 = some v2) :
    parseIntHex [c1, c2] = some (v1 * 16 + v2) := by
  simp [parseIntHex, parseIntHexGo, h1, h2]

/-- The `rgbToHex` of a valid color, with all digits spelled out. -/
theorem rgbToHex_explicit {r g b : Nat} (hr : r ≤ 255) (hg : g ≤ 255) (hb : b ≤ 255) :
    rgbToHex ⟨r, g, b⟩ =
      ['#', hexDigitChar (r / 16), hexDigitChar (r % 16),
        hexDigitChar (g / 16), hexDigitChar (g % 16),
        hexDigitChar (b / 16), hexDigitChar (b % 16)] := by
  unfold rgbToHex
  dsimp only
  rw [padStart2_natToHex hr, padStart2_natToHex hg, padStart2_natToHex hb]
  rfl

/-- The `hexToRgb` of a 7-character string of valid digits. -/
theorem hexToRgb_explicit (a1 a2 b1 b2 c1 c2 : Char) (v1 v2 v3 v4 v5 v6 : Nat)
    (h1 : hexVal? a1 = some v1) (h2 : hexVal? a2 = some v2)
    (h3 : hexVal? b1 = some v3) (h4 : hexVal? b2 = some v4)
    (h5 : hexVal? c1 = some v5) (h6 : hexVal? c2 = some v6) :
    hexToRgb ['#', a1, a2, b1, b2, c1, c2]
      = some ⟨v1 * 16 + v2, v3 * 16 + v4, v5 * 16 + v6⟩ := by
  unfold hexToRgb
  have eA : ((['#', a1, a2, b1, b2, c1, c2] : List Char).drop 1).take 2 = [a1, a2] := rfl
  have eB : ((['#', a1, a2, b1, b2, c1, c2] : List Char).drop 3).take 2 = [b1, b2] := rfl
  have eC : ((['#', a1, a2, b1, b2, c1, c2] : List Char).drop 5).take 2 = [c1, c2] := rfl
  rw [eA, eB, eC, parseIntHex_two a1 a2 v1 v2 h1 h2, parseIntHex_two b1 b2 v3 v4 h3 h4,
    parseIntHex_two c1 c2 v5 v6 h5 h6]

/-!
## Claim theorems
-/

/-- C1: for every non-empty palette and query color, `findSimilarColor`
returns the palette entry minimizing the Euclidean color distance (stated
via the squared distance `colorSim2`, which orders identically); it is the
*last* equally-close entry in scan order (everything after it in the palette
is strictly farther); `nearestColor(c, [c, x]) = c` for any `x`; and for
palette `[[10,0,0],[0,10,0]]` with query `[5,5,0]` the second entry is
returned. -/
theorem C1_findSimilarColor_nearest (actualColor : RGB) (palette : List RGB)
    (hne : palette ≠ []) :
    (∀ q ∈ palette,
      colorSim2 actualColor (findSimilarColor actualColor palette)
        ≤ colorSim2 actualColor q) ∧
    (∃ l₁ l₂, palette = l₁ ++ findSimilarColor actualColor palette :: l₂ ∧
      ∀ q ∈ l₂,
        colorSim2 actualColor (findSimilarColor actualColor palette)
          < colorSim2 actualColor q) ∧
    (∀ x : RGB, findSimilarColor actualColor [actualColor, x] = actualColor) ∧
    findSimilarColor ⟨5, 5, 0⟩ [⟨10, 0, 0⟩, ⟨0, 10, 0⟩] = ⟨0, 10, 0⟩ := by
  match palette, hne with
  | p0 :: rest, _ =>
    exact ⟨findSimilarColor_min actualColor p0 rest,
      findSimilarColor_last actualColor p0 rest,
      fun x => findSimilarColor_exact actualColor x,
      by decide⟩

/-- Witness for C1 at the query `[0,0,0]` and palette `[[1,2,3]]`. -/
theorem C1_findSimilarColor_nearest_witness :
    (([⟨1, 2, 3⟩] : List RGB) ≠ []) ∧
    ((∀ q ∈ ([⟨1, 2, 3⟩] : List RGB),
      colorSim2 ⟨0, 0, 0⟩ (findSimilarColor ⟨0, 0, 0⟩ [⟨1, 2, 3⟩])
        ≤ colorSim2 ⟨0, 0, 0⟩ q) ∧
    (∃ l₁ l₂, ([⟨1, 2, 3⟩] : List RGB)
        = l₁ ++ findSimilarColor ⟨0, 0, 0⟩ [⟨1, 2, 3⟩] :: l₂ ∧
      ∀ q ∈ l₂,
        colorSim2 ⟨0, 0, 0⟩ (findSimilarColor ⟨0, 0, 0⟩ [⟨1, 2, 3⟩])
          < colorSim2 ⟨0, 0, 0⟩ q) ∧
    (∀ x : RGB, findSimilarColor ⟨0, 0, 0⟩ [⟨0, 0, 0⟩, x] = ⟨0, 0, 0⟩) ∧
    findSimilarColor ⟨5, 5, 0⟩ [⟨10, 0, 0⟩, ⟨0, 10, 0⟩] = ⟨0, 10, 0⟩) :=
  ⟨by decide, C1_findSimilarColor_nearest ⟨0, 0, 0⟩ [⟨1, 2, 3⟩] (by decide)⟩

/-- C2: at the failing input — an opaque pure-red pixel — the synchronous
`PixelIt.convertGrayscale` produces the unweighted average
`round(255/3) = 85`, while the worker's grayscale handler produces the
luminance value `round(0.299*255) = 76`: the offloaded variant does not
compute `(R+G+B)/3` and the two variants are not behaviorally identical. -/
theorem C2_grayscale_divergence :
    convertGrayscaleData [⟨255, 0, 0, 255⟩] = [⟨85, 85, 85, 255⟩] ∧
    handleGrayscaleData [⟨255, 0, 0, 255⟩] = [⟨76, 76, 76, 255⟩] ∧
    handleGrayscaleData [⟨255, 0, 0, 255⟩] ≠ convertGrayscaleData [⟨255, 0, 0, 255⟩] := by
  decide

/-- C3 (counterexample): feed the extractor an opaque black pixel followed by
an opaque `(3,0,0)` pixel.  Both land in bucket `(0,0,0)`; when the second is
folded in, the bucket holds mean 0 and count 1, and the claim's formula
predicts a new red mean of `round((0*1 + 3)/(1+1)) = 2` — but the code's
bucket ends with red mean 1 (it blends with the already-incremented count). -/
theorem C3_counterexample :
    extractColorMap [⟨0, 0, 0, 255⟩, ⟨3, 0, 0, 255⟩]
      = [((0, 0, 0), ⟨⟨1, 0, 0⟩, 2⟩)] ∧
    jsRound (0 * 1 + 3) (1 + 1) = 2 := by
  decide

/-- Updating an existing key deep in the map blends that bucket in place. -/
theorem mapFold_existing (key : ColorKey) (mean : RGB) (n : Nat) (p : Pixel) :
    ∀ (pre post : ColorMap), (∀ e ∈ pre, e.1 ≠ key) →
      mapFold (pre ++ (key, ⟨mean, n⟩) :: post) key p
        = pre ++ (key, blendBucket ⟨mean, n⟩ p) :: post := by
  intro pre
  induction pre with
  | nil =>
    intro post _
    simp only [List.nil_append]
    rw [mapFold_head]
  | cons e pre' ih =>
    intro post hpre
    obtain ⟨k0, b0⟩ := e
    have hk0 : k0 ≠ key := hpre (k0, b0) (by simp)
    rw [List.cons_append, mapFold_cons_ne _ _ _ _ _ hk0,
      ih post (fun x hx => hpre x (List.mem_cons.mpr (Or.inr hx))), List.cons_append]

/-- C3 (amended): in `extractPaletteFromImageData`, when an opaque sampled
pixel `(r,g,b)` falls into a bucket already holding per-channel mean
`old_mean` with hit count `n`, the bucket's new per-channel mean becomes
`round((old_mean * (n+1) + new_value) / (n+2))` — the code increments the hit
count *before* blending — and its hit count becomes `n + 1`; the bucket's
position and all other buckets are untouched. -/
theorem C3_bucket_update (pre post : ColorMap) (key : ColorKey) (mean : RGB)
    (n : Nat) (p : Pixel) (ha : 128 ≤ p.a) (hkey : bucketKey p = key)
    (hpre : ∀ e ∈ pre, e.1 ≠ key) :
    updatePixel (pre ++ (key, ⟨mean, n⟩) :: post) p
      = pre ++ (key,
          ⟨⟨jsRound (mean.r * (n + 1) + p.r) (n + 2),
            jsRound (mean.g * (n + 1) + p.g) (n + 2),
            jsRound (mean.b * (n + 1) + p.b) (n + 2)⟩, n + 1⟩) :: post := by
  unfold updatePixel
  rw [if_neg (by omega), hkey, mapFold_existing key mean n p pre post hpre]
  rfl

/-- Witness for C3 (amended): the bucket `(0,0,0) ↦ (mean 0, count 1)` hit by
the pixel `(3,0,0,255)` moves to mean red `round((0*2+3)/3) = 1`, count 2. -/
theorem C3_bucket_update_witness :
    128 ≤ (Pixel.mk 3 0 0 255).a ∧
    bucketKey ⟨3, 0, 0, 255⟩ = (0, 0, 0) ∧
    updatePixel [((0, 0, 0), ⟨⟨0, 0, 0⟩, 1⟩)] ⟨3, 0, 0, 255⟩
      = [((0, 0, 0),
          ⟨⟨jsRound (0 * (1 + 1) + 3) (1 + 2),
            jsRound (0 * (1 + 1) + 0) (1 + 2),
            jsRound (0 * (1 + 1) + 0) (1 + 2)⟩, 1 + 1⟩)] :=
  ⟨by decide, by decide,
    C3_bucket_update [] [] (0, 0, 0) ⟨0, 0, 0⟩ 1 ⟨3, 0, 0, 255⟩
      (by decide) (by decide) (by simp)⟩

/-- C4 (counterexample): with a stored scale of `0.20`,
`PixelItWorker.setScale 51` does not keep the prior value — it resets the
scale to the default `0.08`. -/
theorem C4_counterexample :
    (PixelItWorker.setScale
        ⟨[], 20 * (1 / 100), [], [[]], 0, none, none, []⟩ 51).scale
      ≠ (PipelineState.mk [] (20 * (1 / 100)) [] [[]] 0 none none []).scale ∧
    (PixelItWorker.setScale
        ⟨[], 20 * (1 / 100), [], [[]], 0, none, none, []⟩ 51).scale
      = 8 * (1 / 100) := by
  constructor
  · intro h
    rw [PixelItWorker.setScale, if_neg (by norm_num)] at h
    simp only at h
    norm_num at h
  · rw [PixelItWorker.setScale, if_neg (by norm_num)]

/-- C4 (amended): for every state and number `x` with `x ≤ 0` or `x > 50`,
`PixelIt.setScale x` leaves the whole state (hence `getScale`) unchanged,
but `PixelItWorker.setScale x` resets the stored scale to the default
`8 * 0.01`; for `x` in `(0, 50]` both store `x * 0.01`. -/
theorem C4_setScale (st : PipelineState) (x : ℚ) :
    ((x ≤ 0 ∨ 50 < x) →
      PixelIt.setScale st x = st ∧
      PixelIt.getScale (PixelIt.setScale st x) = PixelIt.getScale st ∧
      (PixelItWorker.setScale st x).scale = 8 * (1 / 100)) ∧
    (0 < x → x ≤ 50 →
      (PixelIt.setScale st x).scale = x * (1 / 100) ∧
      (PixelItWorker.setScale st x).scale = x * (1 / 100)) := by
  constructor
  · intro hx
    have hcond : ¬(x ≠ 0 ∧ 0 < x ∧ x ≤ 50) := by
      rintro ⟨h1, h2, h3⟩
      rcases hx with h | h <;> linarith
    have hcond2 : ¬(0 < x ∧ x ≤ 50) := by
      rintro ⟨h2, h3⟩
      rcases hx with h | h <;> linarith
    refine ⟨?_, ?_, ?_⟩
    · rw [PixelIt.setScale, if_neg hcond]
    · rw [PixelIt.setScale, if_neg hcond]
    · rw [PixelItWorker.setScale, if_neg hcond2]
  · intro h1 h2
    constructor
    · rw [PixelIt.setScale, if_pos ⟨ne_of_gt h1, h1, h2⟩]
    · rw [PixelItWorker.setScale, if_pos ⟨h1, h2⟩]

/-- Witness for C4 (amended) at `x = 51` on a state with scale `0.20`. -/
theorem C4_setScale_witness :
    (((51 : ℚ) ≤ 0 ∨ (50 : ℚ) < 51) ∧
      PixelIt.setScale ⟨[], 20 * (1 / 100), [], [[]], 0, none, none, []⟩ 51
        = ⟨[], 20 * (1 / 100), [], [[]], 0, none, none, []⟩ ∧
      PixelIt.getScale
          (PixelIt.setScale ⟨[], 20 * (1 / 100), [], [[]], 0, none, none, []⟩ 51)
        = PixelIt.getScale ⟨[], 20 * (1 / 100), [], [[]], 0, none, none, []⟩ ∧
      (PixelItWorker.setScale
          ⟨[], 20 * (1 / 100), [], [[]], 0, none, none, []⟩ 51).scale
        = 8 * (1 / 100)) ∧
    ((0 : ℚ) < 20 ∧ (20 : ℚ) ≤ 50 ∧
      (PixelIt.setScale ⟨[], 0, [], [[]], 0, none, none, []⟩ 20).scale
        = 20 * (1 / 100)) :=
  ⟨⟨Or.inr (by norm_num),
      (C4_setScale ⟨[], 20 * (1 / 100), [], [[]], 0, none, none, []⟩ 51).1
        (Or.inr (by norm_num))⟩,
    by norm_num, by norm_num,
    ((C4_setScale ⟨[], 0, [], [[]], 0, none, none, []⟩ 20).2
      (by norm_num) (by norm_num)).1⟩

/-- C5: `resizeImage` applies its constraints in two sequential stages —
width first, then height on the already-scaled result — so under both
constraints the final dimensions are `(w * mh / h, mh)` (final width below
`maxWidth`), and a 100×50 source with `maxWidth = 40`, `maxHeight = 10`
lands at 20×10. -/
theorem C5_resizeImage (w h mw mh : ℚ) (hh : 0 < h) (hmw : 0 < mw)
    (hwmw : mw < w) (hmh : 0 < mh) (hsecond : mh < h * (mw / w)) :
    resizeImageDims w h (some mw) (some mh) = (w * mh / h, mh) ∧
    w * mh / h < mw ∧
    resizeImageDims 100 50 (some 40) (some 10) = (20, 10) := by
  have hw : (0 : ℚ) < w := lt_trans hmw hwmw
  refine ⟨?_, ?_, by norm_num [resizeImageDims]⟩
  · rw [resizeImageDims]
    split_ifs with hc1 hc2
    · have heq : mw * (mh / (h * (mw / w))) = w * mh / h := by
        field_simp
        ring
      rw [heq]
    · exact absurd ⟨ne_of_gt hmh, hsecond⟩ hc2
    · exact absurd ⟨ne_of_gt hmw, hwmw⟩ hc1
    · exact absurd ⟨ne_of_gt hmw, hwmw⟩ hc1
  · have hs : mh * w < h * mw := by
      have h1 : h * (mw / w) = h * mw / w := by ring
      rw [h1] at hsecond
      have := (lt_div_iff₀ hw).mp hsecond
      linarith
    rw [div_lt_iff₀ hh]
    nlinarith [hs]

/-- Witness for C5 at the spec's 100×50 source with caps 40 and 10. -/
theorem C5_resizeImage_witness :
    (0 : ℚ) < 50 ∧ (0 : ℚ) < 40 ∧ (40 : ℚ) < 100 ∧ (0 : ℚ) < 10 ∧
    (10 : ℚ) < 50 * (40 / 100) ∧
    resizeImageDims 100 50 (some 40) (some 10) = (100 * 10 / 50, 10) ∧
    (100 : ℚ) * 10 / 50 < 40 :=
  ⟨by norm_num, by norm_num, by norm_num, by norm_num, by norm_num,
    (C5_resizeImage 100 50 40 10 (by norm_num) (by norm_num) (by norm_num)
      (by norm_num) (by norm_num)).1,
    (C5_resizeImage 100 50 40 10 (by norm_num) (by norm_num) (by norm_num)
      (by norm_num) (by norm_num)).2.1⟩

/-- C6: for every buffer and non-empty active palette (of in-range colors),
after `PixelIt.convertPalette` every output pixel's RGB triple is a palette
member, every alpha channel is unchanged, and `getColorStats` returns a
freshly built record — independent of any stats from an earlier call — whose
counts sum exactly to width×height of the processed image. -/
theorem C6_convertPalette (st : PipelineState) (w h : Nat)
    (hne : st.palette ≠ [])
    (hvalid : ∀ sc ∈ st.palette, sc.r ≤ 255 ∧ sc.g ≤ 255 ∧ sc.b ≤ 255)
    (hdim : st.buffer.length = w * h) :
    (∀ q ∈ (PixelIt.convertPalette st).buffer, RGB.mk q.r q.g q.b ∈ st.palette) ∧
    ((PixelIt.convertPalette st).buffer).map Pixel.a = st.buffer.map Pixel.a ∧
    statsSum (PixelIt.getColorStats (PixelIt.convertPalette st)) = w * h ∧
    (∀ prior : ColorStats,
      PixelIt.getColorStats (PixelIt.convertPalette { st with endColorStats := prior })
        = PixelIt.getColorStats (PixelIt.convertPalette st)) := by
  refine ⟨?_, ?_, ?_, ?_⟩
  · intro q hq
    exact convertPaletteLoop_mem st.palette hne hvalid st.buffer [] q hq
  · exact convertPaletteLoop_alpha st.palette st.buffer []
  · show statsSum (convertPaletteLoop st.palette st.buffer []).2 = w * h
    rw [convertPaletteLoop_statsSum]
    simpa [statsSum] using hdim
  · intro prior
    rfl

/-- Witness for C6 on a one-pixel buffer and the palette `[[1,2,3]]`. -/
theorem C6_convertPalette_witness :
    ((PipelineState.mk [⟨9, 9, 9, 4⟩] 0 [⟨1, 2, 3⟩] [[]] 0 none none
        [((0, 0, 0), 5)]).palette ≠ [] ∧
      (PipelineState.mk [⟨9, 9, 9, 4⟩] 0 [⟨1, 2, 3⟩] [[]] 0 none none
        [((0, 0, 0), 5)]).buffer.length = 1 * 1) ∧
    ((∀ q ∈ (PixelIt.convertPalette
        (PipelineState.mk [⟨9, 9, 9, 4⟩] 0 [⟨1, 2, 3⟩] [[]] 0 none none
          [((0, 0, 0), 5)])).buffer,
        RGB.mk q.r q.g q.b ∈ [RGB.mk 1 2 3]) ∧
      statsSum (PixelIt.getColorStats (PixelIt.convertPalette
        (PipelineState.mk [⟨9, 9, 9, 4⟩] 0 [⟨1, 2, 3⟩] [[]] 0 none none
          [((0, 0, 0), 5)]))) = 1 * 1) :=
  ⟨⟨by decide, by decide⟩,
    (C6_convertPalette
        (PipelineState.mk [⟨9, 9, 9, 4⟩] 0 [⟨1, 2, 3⟩] [[]] 0 none none
          [((0, 0, 0), 5)]) 1 1
        (by decide) (by decide) (by decide)).1,
    (C6_convertPalette
        (PipelineState.mk [⟨9, 9, 9, 4⟩] 0 [⟨1, 2, 3⟩] [[]] 0 none none
          [((0, 0, 0), 5)]) 1 1
        (by decide) (by decide) (by decide)).2.2.1⟩

/-- C7: `extractPaletteFromImageData` returns at most `numColors` colors and
never two identical exact RGB triples; and on a buffer of identically
colored opaque pixels it returns exactly that one color for any requested
`numColors ≥ 1`. -/
theorem C7_extractPalette :
    (∀ (pixels : List Pixel) (numColors : Nat),
      (extractPaletteFromImageData pixels numColors).length ≤ numColors ∧
      (extractPaletteFromImageData pixels numColors).Pairwise (· ≠ ·)) ∧
    (∀ (p : Pixel) (pixels : List Pixel) (numColors : Nat),
      128 ≤ p.a → pixels ≠ [] → (∀ q ∈ pixels, q = p) → 1 ≤ numColors →
      extractPaletteFromImageData pixels numColors = [⟨p.r, p.g, p.b⟩]) :=
  ⟨fun pixels numColors =>
      ⟨extractPalette_le pixels numColors, extractPalette_pairwise pixels numColors⟩,
    fun p pixels numColors hp hne hall hnc =>
      extractPalette_single p hp pixels hne hall numColors hnc⟩

/-- Witness for C7 on a two-pixel buffer of the opaque color `(7,7,7)` with
`numColors = 4`. -/
theorem C7_extractPalette_witness :
    (128 ≤ (Pixel.mk 7 7 7 255).a ∧
      ([⟨7, 7, 7, 255⟩, ⟨7, 7, 7, 255⟩] : List Pixel) ≠ [] ∧
      (∀ q ∈ ([⟨7, 7, 7, 255⟩, ⟨7, 7, 7, 255⟩] : List Pixel), q = ⟨7, 7, 7, 255⟩) ∧
      1 ≤ 4) ∧
    extractPaletteFromImageData [⟨7, 7, 7, 255⟩, ⟨7, 7, 7, 255⟩] 4 = [⟨7, 7, 7⟩] :=
  ⟨⟨by decide, by decide, by decide, by decide⟩,
    C7_extractPalette.2 ⟨7, 7, 7, 255⟩ [⟨7, 7, 7, 255⟩, ⟨7, 7, 7, 255⟩] 4
      (by decide) (by decide) (by decide) (by decide)⟩

/-- C8: `setPaletteByIndex` with an out-of-range index is a complete no-op
on both classes; an in-range index selects `availablePalettes[i]` and stores
the index. -/
theorem C8_setPaletteByIndex (st : PipelineState) (index : Int) :
    ((index < 0 ∨ (st.availablePalettes.length : Int) ≤ index) →
      PixelIt.setPaletteByIndex st index = st ∧
      PixelItWorker.setPaletteByIndex st index = st) ∧
    (0 ≤ index → ∀ hn : index.toNat < st.availablePalettes.length,
      PixelIt.setPaletteByIndex st index
        = { st with currentPaletteIndex := index,
                    palette := st.availablePalettes.get ⟨index.toNat, hn⟩ } ∧
      PixelItWorker.setPaletteByIndex st index
        = { st with currentPaletteIndex := index,
                    palette := st.availablePalettes.get ⟨index.toNat, hn⟩ }) := by
  constructor
  · intro hout
    have hcond : ¬(0 ≤ index ∧ index < (st.availablePalettes.length : Int)) := by
      rintro ⟨h1, h2⟩
      rcases hout with h | h <;> omega
    constructor
    · rw [PixelIt.setPaletteByIndex, if_neg hcond]
    · rw [PixelItWorker.setPaletteByIndex, if_neg hcond]
  · intro hpos hn
    have hcond : 0 ≤ index ∧ index < (st.availablePalettes.length : Int) := by
      constructor
      · exact hpos
      · omega
    have hget : st.availablePalettes.getD index.toNat []
        = st.availablePalettes.get ⟨index.toNat, hn⟩ := by
      rw [List.getD_eq_getElem st.availablePalettes [] hn, List.get_eq_getElem]
    constructor
    · rw [PixelIt.setPaletteByIndex, if_pos hcond, hget]
    · rw [PixelItWorker.setPaletteByIndex, if_pos hcond, hget]

/-- Witness for C8: index 1 is out of range for a single available palette,
index 0 is in range. -/
theorem C8_setPaletteByIndex_witness :
    (((1 : Int) < 0 ∨
        (((PipelineState.mk [] 0 [] [[⟨4, 5, 6⟩]] 0 none none
          []).availablePalettes.length : Int) ≤ 1)) ∧
      PixelIt.setPaletteByIndex
          (PipelineState.mk [] 0 [] [[⟨4, 5, 6⟩]] 0 none none []) 1
        = PipelineState.mk [] 0 [] [[⟨4, 5, 6⟩]] 0 none none []) ∧
    ((0 : Int) ≤ 0 ∧
      (PixelIt.setPaletteByIndex
          (PipelineState.mk [] 0 [] [[⟨4, 5, 6⟩]] 0 none none []) 0).palette
        = [⟨4, 5, 6⟩]) :=
  ⟨⟨Or.inr (by decide),
      ((C8_setPaletteByIndex
          (PipelineState.mk [] 0 [] [[⟨4, 5, 6⟩]] 0 none none []) 1).1
        (Or.inr (by decide))).1⟩,
    ⟨by decide, by
      have h := ((C8_setPaletteByIndex
          (PipelineState.mk [] 0 [] [[⟨4, 5, 6⟩]] 0 none none []) 0).2
        (by decide) (by decide)).1
      rw [h]
      rfl⟩⟩


/-- C9 (counterexample): adding a palette that is already registered to a
`PixelItWorker` does not grow the available-palettes list — the worker
deduplicates, so the list keeps length 1 instead of growing to 2. -/
theorem C9_counterexample :
    (PixelItWorker.addPalette
        (PipelineState.mk [] 0 [] [[⟨1, 2, 3⟩]] 0 none none []) [⟨1, 2, 3⟩]).availablePalettes
      = [[⟨1, 2, 3⟩]] ∧
    (PixelItWorker.addPalette
        (PipelineState.mk [] 0 [] [[⟨1, 2, 3⟩]] 0 none none []) [⟨1, 2, 3⟩]).availablePalettes.length
      ≠ (PipelineState.mk [] 0 [] [[⟨1, 2, 3⟩]] 0 none none
          []).availablePalettes.length + 1 := by
  constructor
  · rw [PixelItWorker.addPalette, if_pos (by decide)]
  · rw [PixelItWorker.addPalette, if_pos (by decide)]
    decide

/-- C9 (amended): `PixelIt.addPalette p` always appends `p` (the list grows
by one with `p` last) and changes neither the active palette nor the index;
`PixelItWorker.addPalette p` appends only when no `JSON.stringify`-equal
palette is already registered — otherwise it is a no-op — and likewise never
touches the active palette or the index. -/
theorem C9_addPalette (st : PipelineState) (p : List RGB) :
    ((PixelIt.addPalette st p).availablePalettes = st.availablePalettes ++ [p] ∧
      (PixelIt.addPalette st p).palette = st.palette ∧
      (PixelIt.addPalette st p).currentPaletteIndex = st.currentPaletteIndex) ∧
    (p ∉ st.availablePalettes →
      (PixelItWorker.addPalette st p).availablePalettes
        = st.availablePalettes ++ [p]) ∧
    (p ∈ st.availablePalettes → PixelItWorker.addPalette st p = st) ∧
    ((PixelItWorker.addPalette st p).palette = st.palette ∧
      (PixelItWorker.addPalette st p).currentPaletteIndex
        = st.currentPaletteIndex) := by
  refine ⟨⟨rfl, rfl, rfl⟩, ?_, ?_, ?_⟩
  · intro hnot
    have hany : ¬(st.availablePalettes.any fun q => q = p) = true := by
      intro hc
      obtain ⟨x, hx, hxe⟩ := List.any_eq_true.mp hc
      have hxp : x = p := by simpa using hxe
      exact hnot (hxp ▸ hx)
    rw [PixelItWorker.addPalette, if_neg hany]
  · intro hmem
    have hany : (st.availablePalettes.any fun q => q = p) = true :=
      List.any_eq_true.mpr ⟨p, hmem, by simp⟩
    rw [PixelItWorker.addPalette, if_pos hany]
  · rw [PixelItWorker.addPalette]
    split <;> exact ⟨rfl, rfl⟩

/-- Witness for C9: appending a new palette to an empty registry, and the
no-op on a registered one. -/
theorem C9_addPalette_witness :
    ((PixelIt.addPalette
        (PipelineState.mk [] 0 [] [[⟨1, 2, 3⟩]] 0 none none []) [⟨9, 9, 9⟩]).availablePalettes
      = [[⟨1, 2, 3⟩]] ++ [[⟨9, 9, 9⟩]]) ∧
    (([⟨9, 9, 9⟩] : List RGB) ∉ ([[⟨1, 2, 3⟩]] : List (List RGB)) ∧
      (PixelItWorker.addPalette
          (PipelineState.mk [] 0 [] [[⟨1, 2, 3⟩]] 0 none none []) [⟨9, 9, 9⟩]).availablePalettes
        = [[⟨1, 2, 3⟩]] ++ [[⟨9, 9, 9⟩]]) :=
  ⟨(C9_addPalette (PipelineState.mk [] 0 [] [[⟨1, 2, 3⟩]] 0 none none [])
      [⟨9, 9, 9⟩]).1.1,
    by decide,
    (C9_addPalette (PipelineState.mk [] 0 [] [[⟨1, 2, 3⟩]] 0 none none [])
      [⟨9, 9, 9⟩]).2.1 (by decide)⟩

/-- C10: hex/RGB conversion round-trips: for components in `[0,255]`,
`rgbToHex` emits a 7-character string — `'#'` followed by six lowercase hex
digits — and `hexToRgb` parses it back to exactly the same triple. -/
theorem C10_hex_roundtrip (r g b : Nat) (hr : r ≤ 255) (hg : g ≤ 255)
    (hb : b ≤ 255) :
    (rgbToHex ⟨r, g, b⟩).length = 7 ∧
    (rgbToHex ⟨r, g, b⟩).head? = some '#' ∧
    (∀ ch ∈ rgbToHex ⟨r, g, b⟩,
      ch = '#' ∨ ('0' ≤ ch ∧ ch ≤ '9') ∨ ('a' ≤ ch ∧ ch ≤ 'f')) ∧
    hexToRgb (rgbToHex ⟨r, g, b⟩) = some ⟨r, g, b⟩ := by
  have hr1 : r / 16 < 16 := by omega
  have hr2 : r % 16 < 16 := by omega
  have hg1 : g / 16 < 16 := by omega
  have hg2 : g % 16 < 16 := by omega
  have hb1 : b / 16 < 16 := by omega
  have hb2 : b % 16 < 16 := by omega
  rw [rgbToHex_explicit hr hg hb]
  refine ⟨rfl, rfl, ?_, ?_⟩
  · intro ch hch
    simp only [List.mem_cons, List.not_mem_nil, or_false] at hch
    rcases hch with h | h | h | h | h | h | h <;> subst h
    · exact Or.inl rfl
    · exact Or.inr (hexDigitChar_lower _ hr1)
    · exact Or.inr (hexDigitChar_lower _ hr2)
    · exact Or.inr (hexDigitChar_lower _ hg1)
    · exact Or.inr (hexDigitChar_lower _ hg2)
    · exact Or.inr (hexDigitChar_lower _ hb1)
    · exact Or.inr (hexDigitChar_lower _ hb2)
  · rw [hexToRgb_explicit _ _ _ _ _ _ _ _ _ _ _ _
      (hexVal?_hexDigitChar _ hr1) (hexVal?_hexDigitChar _ hr2)
      (hexVal?_hexDigitChar _ hg1) (hexVal?_hexDigitChar _ hg2)
      (hexVal?_hexDigitChar _ hb1) (hexVal?_hexDigitChar _ hb2)]
    simp only [Option.some.injEq, RGB.mk.injEq]
    refine ⟨?_, ?_, ?_⟩ <;> omega

/-- Witness for C10 at the color `(171, 205, 239)` (`#abcdef`). -/
theorem C10_hex_roundtrip_witness :
    (171 ≤ 255 ∧ 205 ≤ 255 ∧ 239 ≤ 255) ∧
    (rgbToHex ⟨171, 205, 239⟩).length = 7 ∧
    hexToRgb (rgbToHex ⟨171, 205, 239⟩) = some ⟨171, 205, 239⟩ :=
  ⟨⟨by decide, by decide, by decide⟩,
    (C10_hex_roundtrip 171 205 239 (by decide) (by decide) (by decide)).1,
    (C10_hex_roundtrip 171 205 239 (by decide) (by decide) (by decide)).2.2.2⟩
